import Mathlib

/-!
Shallow embedding of the LEAP Key Manager orchestration layer
(`src/src/leap/keymanager/__init__.py`).

Conventions of the embedding:
* The local key store (Soledad + the OpenPGP scheme's get/put, which are
  external collaborators of this repository) is modelled as a map from
  (address, private?) to an optional stored key; the scheme's `get_key`
  is a lookup that fails with `KeyNotFound` on a miss and its `put_key`
  is an overwrite of the (address, key.private) slot.
* Deferred-based control flow is modelled by explicit state passing: an
  operation takes the store and returns the (possibly updated) store
  together with `Except KMError result`.  With synchronously resolved
  deferreds, `defer.gatherResults([dpub, dpriv], consumeErrors=True)`
  followed by `_extract_first_error` surfaces the failure of the first
  deferred in the list that has already failed when callbacks are
  attached, i.e. list order; this is how the join is modelled.
* Python exceptions that are raised synchronously (and hence caught by
  the `try/except` in `_fetch_keys_from_server`) are distinguished from
  failures travelling inside a Deferred by the dedicated error
  constructor `pyError`.
* The cryptographic engine (OpenPGP scheme primitives) and the armored
  key parser `parse_ascii_key` are external collaborators; they enter
  the model as function parameters.
* There is a single registered key type (`OpenPGPKey`) in the source's
  `_wrapper_map`, so `_assert_supported_key_type` always succeeds and
  the key-type parameter is dropped from the embedding.
-/

/-- Validation levels.  Modelled from the spec: the source imports
`ValidationLevels` from `leap.keymanager.validation`, a module of this
repository that is not under src/.  Spec §3: an ordered enumeration,
weakest to strongest; only `Weak_Chain` and `Provider_Trust` are
exercised by the resolver. -/
inductive ValidationLevels where
  | Weak_Chain
  | Provider_Trust
deriving DecidableEq

/-- Numeric rank of a validation level (`Weak_Chain < Provider_Trust`). -/
def level : ValidationLevels → Nat
  | .Weak_Chain => 0
  | .Provider_Trust => 1

/-- A stored cryptographic key (spec §3 "Key"): identifier, owned
addresses, privacy flag, validation level, usage flags, raw material. -/
structure Key where
  key_id : String
  address : List String
  priv : Bool
  validation : ValidationLevels
  encr_used : Bool
  sign_used : Bool
  key_data : String
deriving DecidableEq

/-- The error taxonomy of `leap.keymanager.errors` as used by the core,
plus `pyError` for a plain Python exception raised synchronously
(e.g. `TypeError` from unpacking `None`, `AttributeError` from setting
an attribute on `None`). -/
inductive KMError where
  | KeyNotFound (detail : String)
  | KeyAddressMismatch (detail : String)
  | KeyNotValidUpgrade (detail : String)
  | InvalidSignature (detail : String)
  | UnsupportedKeyTypeError (detail : String)
  | pyError (detail : String)
deriving DecidableEq

/-- The local key store: a key per (address, private?) slot. -/
abbrev Store : Type := String → Bool → Option Key

/-- The scheme-level `put_key(key, address)`: overwrite the slot
(address, key.private) of the local store.  This is the raw store write;
it performs no policy checks. -/
def storePut (st : Store) (key : Key) (address : String) : Store :=
  fun a p => if a = address ∧ p = key.priv then some key else st a p

/-- The empty local store. -/
def store_empty : Store := fun _ _ => none

/-- Modelled from the spec: `can_upgrade(candidate, existing_or_none)`
is imported from `leap.keymanager.validation`, which is not under src/.
Spec §4.2: no existing key → allow (installation); existing key private
or candidate private → allow (private keys are never subject to
directory-sourced downgrade checks); otherwise the candidate's
validation level must be at least the existing one and the
scheme-specific supersession hook (abstracted here as the parameter
`supersession`) must accept the candidate. -/
def can_upgrade (supersession : Key → Key → Bool) (new : Key) (old : Option Key) : Bool :=
  match old with
  | none => true
  | some oldk =>
    if oldk.priv || new.priv then true
    else decide (level oldk.validation ≤ level new.validation) && supersession new oldk

/-- `KeyManager.put_key(key, address)` (source lines 679-722): fail with
`KeyAddressMismatch` if `address` is not among the key's uids; otherwise
look up the existing key of the same privacy for `address` (a
`KeyNotFound` miss counts as "no existing key"), and write through the
scheme iff the key is private or `can_upgrade` accepts, else fail with
`KeyNotValidUpgrade`. -/
def KeyManager.put_key (ss : Key → Key → Bool) (key : Key) (address : String)
    (st : Store) : Store × Except KMError Unit :=
  if address ∉ key.address then
    (st, Except.error (KMError.KeyAddressMismatch
      ("UID " ++ String.intercalate ", " key.address ++ " found, but expected " ++ address)))
  else
    if key.priv || can_upgrade ss key (st address key.priv) then
      (storePut st key address, Except.ok ())
    else
      (st, Except.error (KMError.KeyNotValidUpgrade
        ("Key " ++
         (match st address key.priv with | some o => o.key_id | none => "") ++
         " can not be upgraded by new key " ++ key.key_id)))

/-- `_split_email(address)` (source lines 808-820): `None` unless the
address contains exactly one `@`, else the (local-part, domain) pair
produced by `address.split("@")`. -/
def split_email (address : String) : Option (String × String) :=
  if address.toList.count '@' ≠ 1 then none
  else
    let cs := address.toList
    some (String.mk (cs.takeWhile (fun c => c != '@')),
          String.mk ((cs.dropWhile (fun c => c != '@')).drop 1))

/-- Characters Python 2's `urlparse` accepts in a URL scheme. -/
def scheme_chars (c : Char) : Bool :=
  c.isAlpha || c.isDigit || c == '+' || c == '-' || c == '.'

/-- `netloc.split('@')[-1]`: the part of the netloc after the last `@`
(the whole netloc when there is no `@`). -/
def afterLastAt (cs : List Char) : List Char :=
  (cs.reverse.takeWhile (fun c => c != '@')).reverse

/-- `_get_domain(url)` (source lines 823-833), i.e. Python 2's
`urlparse(url).hostname`: strip a leading `scheme:` when present, parse
a netloc only when the remainder starts with `//`, strip userinfo and
port, and lowercase the result; `None` when there is no host.  Note the
lowercasing: `urlparse(...).hostname` returns the host in lower case. -/
def get_domain (url : String) : Option String :=
  let cs := url.toList
  let before := cs.takeWhile (fun c => c != ':')
  let rest :=
    if cs.contains ':' && decide (0 < before.length) && before.all scheme_chars then
      (cs.dropWhile (fun c => c != ':')).drop 1
    else cs
  match rest with
  | '/' :: '/' :: r =>
    let netloc := r.takeWhile (fun c => c != '/' && c != '?' && c != '#')
    let host0 := afterLastAt netloc
    if host0.contains '[' && host0.contains ']' then
      some (String.mk (((host0.takeWhile (fun c => c != ']')).drop 1).map Char.toLower))
    else if host0.contains ':' then
      some (String.mk ((host0.takeWhile (fun c => c != ':')).map Char.toLower))
    else if host0.isEmpty then none
    else some (String.mk (host0.map Char.toLower))
  | _ => none

/-- Lookup in the JSON object returned by the nickserver
(`self.OPENPGP_KEY in server_keys` / `server_keys['openpgp']`). -/
def lookupKey (k : String) (l : List (String × String)) : Option String :=
  match l with
  | [] => none
  | (k2, v) :: rest => if k2 = k then some v else lookupKey k rest

/-- Outcome of the HTTP GET to the nickserver followed by
`res.raise_for_status()` and `res.json()`: either the parsed JSON
object, an `HTTPError` with its status code, or any other exception
during the request/parse. -/
inductive HttpResult where
  | success (server_keys : List (String × String))
  | httpError (status : Nat) (message : String)
  | transportError (message : String)
deriving DecidableEq

/-- `KeyManager.put_raw_key(key, ktype, address, validation)` (source
lines 724-754): parse the ascii key into (public, optional private),
set the public key's validation level, store the public key via
`put_key`, then the private key too when one was embedded.  A parse
result with no public key makes the synchronous
`pubkey.validation = validation` raise `AttributeError` (modelled as
`pyError`). -/
def KeyManager.put_raw_key (parse : String → Option Key × Option Key)
    (ss : Key → Key → Bool) (key : String) (address : String)
    (validation : ValidationLevels) (st : Store) : Store × Except KMError Unit :=
  match parse key with
  | (none, _) =>
    (st, Except.error (KMError.pyError "NoneType object has no attribute validation"))
  | (some pub, privkey) =>
    match KeyManager.put_key ss { pub with validation := validation } address st with
    | (st1, Except.error e) => (st1, Except.error e)
    | (st1, Except.ok _) =>
      match privkey with
      | none => (st1, Except.ok ())
      | some pk => KeyManager.put_key ss pk address st1

/-- `KeyManager._fetch_keys_from_server(address)` (source lines
210-257): on a JSON response containing an `openpgp` key, pick
`Provider_Trust` when the address domain equals the nickserver's domain
and `Weak_Chain` otherwise, then store through `put_raw_key`.  The
`try/except` catches `HTTPError` (404 → `KeyNotFound(address)`, other
statuses → `KeyNotFound(e.message)`) and any other synchronously raised
exception (→ `KeyNotFound(e.message)`); failures travelling inside the
Deferred returned by `put_raw_key` are not caught and surface
unchanged.  The 300s memoization of the method is not modelled (a
single un-cached call is). -/
def KeyManager.fetch_keys_from_server (parse : String → Option Key × Option Key)
    (ss : Key → Key → Bool) (nickserver_uri : String) (address : String)
    (res : HttpResult) (st : Store) : Store × Except KMError Unit :=
  match res with
  | HttpResult.httpError status msg =>
    if status = 404 then (st, Except.error (KMError.KeyNotFound address))
    else (st, Except.error (KMError.KeyNotFound msg))
  | HttpResult.transportError msg => (st, Except.error (KMError.KeyNotFound msg))
  | HttpResult.success server_keys =>
    match lookupKey "openpgp" server_keys with
    | none => (st, Except.ok ())
    | some armored =>
      match split_email address with
      | none =>
        (st, Except.error (KMError.KeyNotFound "NoneType object is not iterable"))
      | some (_, domain) =>
        match KeyManager.put_raw_key parse ss armored address
            (if get_domain nickserver_uri = some domain then ValidationLevels.Provider_Trust
             else ValidationLevels.Weak_Chain) st with
        | (st1, Except.error (KMError.pyError msg)) =>
          (st1, Except.error (KMError.KeyNotFound msg))
        | (st1, r) => (st1, r)

/-- `KeyManager.get_key(address, ktype, private, fetch_remote)` (source
lines 297-354): return the locally stored key when present; on a
`KeyNotFound` miss, fail when `fetch_remote` is false or `private` is
true, otherwise fetch from the nickserver and on its success re-read
the public key from the local store. -/
def KeyManager.get_key (parse : String → Option Key × Option Key)
    (ss : Key → Key → Bool) (nickserver_uri : String) (address : String)
    (priv fetch_remote : Bool) (res : HttpResult) (st : Store) :
    Store × Except KMError Key :=
  match st address priv with
  | some key => (st, Except.ok key)
  | none =>
    if fetch_remote = false ∨ priv = true then
      (st, Except.error (KMError.KeyNotFound address))
    else
      match KeyManager.fetch_keys_from_server parse ss nickserver_uri address res st with
      | (st1, Except.error e) => (st1, Except.error e)
      | (st1, Except.ok _) =>
        match st1 address false with
        | some key => (st1, Except.ok key)
        | none => (st1, Except.error (KMError.KeyNotFound address))

/-- The signature outcome paired with the plaintext by `decrypt`:
the verifying key, `KeyNotFound(verify)`, or `InvalidSignature`. -/
inductive SignatureOutcome where
  | verifiedKey (k : Key)
  | keyNotFound (address : Option String)
  | invalidSignature (detail : String)
deriving DecidableEq

/-- `KeyManager.decrypt(data, address, ktype, passphrase, verify,
fetch_remote)` (source lines 514-572).  `engine` is the scheme's
`decrypt(data, privkey, passphrase, verify)` returning (plaintext,
signature-verified?).  The private-key resolution is created first and
never writes; the verify-key resolution has an errback converting
`KeyNotFound` to a `None` result; the gather joins `[dpub, dpriv]` in
that list order.  On a verified signature the verifying key, with
`sign_used` set, is written through the scheme's `put_key` directly,
bound to the `address` argument. -/
def KeyManager.decrypt (parse : String → Option Key × Option Key)
    (ss : Key → Key → Bool) (nickserver_uri : String)
    (engine : String → Key → Option Key → String × Bool)
    (data address : String) (verify : Option String) (fetch_remote : Bool)
    (res : HttpResult) (st : Store) :
    Store × Except KMError (String × SignatureOutcome) :=
  match KeyManager.get_key parse ss nickserver_uri address true true res st with
  | (st1, rpriv) =>
    match (match verify with
           | none => ((st1, Except.ok none) : Store × Except KMError (Option Key))
           | some v =>
             match KeyManager.get_key parse ss nickserver_uri v false fetch_remote res st1 with
             | (st2, Except.ok k) => (st2, Except.ok (some k))
             | (st2, Except.error (KMError.KeyNotFound _)) => (st2, Except.ok none)
             | (st2, Except.error e) => (st2, Except.error e)) with
    | (st2, rpub) =>
      match rpub, rpriv with
      | Except.error e, _ => (st2, Except.error e)
      | Except.ok _, Except.error e => (st2, Except.error e)
      | Except.ok pubkey, Except.ok privkey =>
        match engine data privkey pubkey with
        | (decrypted, signed) =>
          match pubkey with
          | none => (st2, Except.ok (decrypted, SignatureOutcome.keyNotFound verify))
          | some pk =>
            if signed then
              (storePut st2 { pk with sign_used := true } address,
               Except.ok (decrypted, SignatureOutcome.verifiedKey { pk with sign_used := true }))
            else
              (st2, Except.ok (decrypted, SignatureOutcome.invalidSignature
                ("Failed to verify signature with key " ++ pk.key_id)))

/-- `KeyManager.encrypt(data, address, ktype, passphrase, sign,
cipher_algo, fetch_remote)` (source lines 462-512).  `engine` is the
scheme's `encrypt(data, pubkey, passphrase, sign)`.  The recipient
public-key resolution runs first (honoring `fetch_remote`), then the
optional signer private-key resolution (local only); the gather joins
`[dpub, dpriv]` in that order.  On success the recipient key with
`encr_used` set is written back through the scheme's `put_key`. -/
def KeyManager.encrypt (parse : String → Option Key × Option Key)
    (ss : Key → Key → Bool) (nickserver_uri : String)
    (engine : String → Key → Option Key → String)
    (data address : String) (sign : Option String) (fetch_remote : Bool)
    (res : HttpResult) (st : Store) : Store × Except KMError String :=
  match KeyManager.get_key parse ss nickserver_uri address false fetch_remote res st with
  | (st1, rpub) =>
    match (match sign with
           | none => ((st1, Except.ok none) : Store × Except KMError (Option Key))
           | some s =>
             match KeyManager.get_key parse ss nickserver_uri s true true res st1 with
             | (st2, Except.ok k) => (st2, Except.ok (some k))
             | (st2, Except.error e) => (st2, Except.error e)) with
    | (st2, rpriv) =>
      match rpub, rpriv with
      | Except.error e, _ => (st2, Except.error e)
      | Except.ok _, Except.error e => (st2, Except.error e)
      | Except.ok pubkey, Except.ok signkey =>
        (storePut st2 { pubkey with encr_used := true } address,
         Except.ok (engine data pubkey signkey))

/-- `KeyManager.verify(data, address, ktype, detached_sig,
fetch_remote)` (source lines 616-661).  `engine` is the scheme's
`verify(data, pubkey, detached_sig)`.  On success the key with
`sign_used` set is written back through the scheme's `put_key`; on
failure the call fails with `InvalidSignature`. -/
def KeyManager.verify (parse : String → Option Key × Option Key)
    (ss : Key → Key → Bool) (nickserver_uri : String)
    (engine : String → Key → Bool) (data address : String)
    (fetch_remote : Bool) (res : HttpResult) (st : Store) :
    Store × Except KMError Key :=
  match KeyManager.get_key parse ss nickserver_uri address false fetch_remote res st with
  | (st1, Except.error e) => (st1, Except.error e)
  | (st1, Except.ok pubkey) =>
    if engine data pubkey then
      (storePut st1 { pubkey with sign_used := true } address,
       Except.ok { pubkey with sign_used := true })
    else
      (st1, Except.error (KMError.InvalidSignature
        ("Failed to verify signature with key " ++ pubkey.key_id)))

/-- `KeyManager.fetch_key(address, uri, ktype, validation)` (source
lines 756-793): fetch raw key bytes from `uri` (the response is
modelled as the pair (res.ok, res.content)), fail with
`KeyNotFound(uri)` on a non-ok response or when parsing yields no
public key, else store the public half via `put_key` with the given
validation level; any embedded private half is discarded. -/
def KeyManager.fetch_key (parse : String → Option Key × Option Key)
    (ss : Key → Key → Bool) (address uri : String)
    (validation : ValidationLevels) (resOk : Bool) (content : String)
    (st : Store) : Store × Except KMError Unit :=
  if resOk = false then (st, Except.error (KMError.KeyNotFound uri))
  else
    match (parse content).1 with
    | none => (st, Except.error (KMError.KeyNotFound uri))
    | some pub =>
      KeyManager.put_key ss { pub with validation := validation } address st

/-- A store is well-formed when every key sits in the slot matching its
own privacy flag (the scheme's `put_key` always writes the key to the
slot of its own `private` flag, so this is invariant). -/
def WellFormedStore (st : Store) : Prop :=
  ∀ a p k, st a p = some k → k.priv = p

/-- The monotonicity relation of claim C1 on the public half of the
store: every address that held a public key still holds one, and its
validation level has not decreased. -/
def PubStep (st st' : Store) : Prop :=
  ∀ a k, st a false = some k →
    ∃ k', st' a false = some k' ∧ level k.validation ≤ level k'.validation

/-! Concrete data used to exercise the operations on explicit inputs. -/

/-- A supersession hook accepting every candidate. -/
def ss_all : Key → Key → Bool := fun _ _ => true

/-- A parser recognizing no key material. -/
def parse_none : String → Option Key × Option Key := fun _ => (none, none)

/-- An engine whose decrypt result is ("pt", signature verified). -/
def engine_sig_ok : String → Key → Option Key → String × Bool :=
  fun _ _ _ => ("pt", true)

def exKeyA : Key :=
  { key_id := "A", address := ["a"], priv := false,
    validation := ValidationLevels.Weak_Chain,
    encr_used := false, sign_used := false, key_data := "" }

/-- A private key for address "a". -/
def privA : Key :=
  { key_id := "KA", address := ["a"], priv := true,
    validation := ValidationLevels.Provider_Trust,
    encr_used := false, sign_used := false, key_data := "" }

/-- A public key for address "a" with the stronger validation level. -/
def pubA : Key :=
  { key_id := "PA", address := ["a"], priv := false,
    validation := ValidationLevels.Provider_Trust,
    encr_used := false, sign_used := false, key_data := "" }

/-- A public key for address "b" with the weaker validation level. -/
def pubB : Key :=
  { key_id := "PB", address := ["b"], priv := false,
    validation := ValidationLevels.Weak_Chain,
    encr_used := false, sign_used := false, key_data := "" }

/-- A store holding the private and public keys of "a" (both at
`Provider_Trust`) and the public key of "b" (at `Weak_Chain`). -/
def st_ab : Store := fun x p =>
  if x = "a" ∧ p = true then some privA
  else if x = "a" ∧ p = false then some pubA
  else if x = "b" ∧ p = false then some pubB
  else none

/-- A public key owning address "b@X.org". -/
def pubX : Key :=
  { key_id := "PX", address := ["b@X.org"], priv := false,
    validation := ValidationLevels.Weak_Chain,
    encr_used := false, sign_used := false, key_data := "" }

/-- A parser that parses the armored text "ARMOR" to `pubX`. -/
def parse_c6 : String → Option Key × Option Key :=
  fun s => if s = "ARMOR" then (some pubX, none) else (none, none)

/-- A public key owning only address "c@x.org". -/
def pubC : Key :=
  { key_id := "PC", address := ["c@x.org"], priv := false,
    validation := ValidationLevels.Weak_Chain,
    encr_used := false, sign_used := false, key_data := "" }

/-- A parser that parses the armored text "ARMOR" to `pubC`. -/
def parse_c7 : String → Option Key × Option Key :=
  fun s => if s = "ARMOR" then (some pubC, none) else (none, none)

/-- The error kinds that can surface from remote resolution. -/
def surfacedKind (e : KMError) : Prop :=
  (∃ d, e = KMError.KeyNotFound d) ∨ (∃ d, e = KMError.KeyAddressMismatch d) ∨
    (∃ d, e = KMError.KeyNotValidUpgrade d)

theorem pubStep_refl (st : Store) : PubStep st st :=
  fun _ k h => ⟨k, h, Nat.le_refl _⟩

theorem pubStep_trans {s1 s2 s3 : Store} (h12 : PubStep s1 s2) (h23 : PubStep s2 s3) :
    PubStep s1 s3 := by
  intro a k h
  obtain ⟨k2, hk2, hle2⟩ := h12 a k h
  obtain ⟨k3, hk3, hle3⟩ := h23 a k2 hk2
  exact ⟨k3, hk3, Nat.le_trans hle2 hle3⟩

theorem wellFormed_storePut {st : Store} (k : Key) (a : String)
    (wf : WellFormedStore st) : WellFormedStore (storePut st k a) := by
  intro x p kk hx
  by_cases hc : x = a ∧ p = k.priv
  · simp only [storePut, if_pos hc, Option.some.injEq] at hx
    rw [← hx]
    exact hc.2.symm
  · simp only [storePut, if_neg hc] at hx
    exact wf x p kk hx

theorem wellFormed_empty : WellFormedStore store_empty := by
  intro a p k h
  simp [store_empty] at h

/-- `KeyManager.put_key` preserves well-formedness and never lowers the
validation level recorded at any public slot, whatever its outcome:
the only write it performs is guarded by `key.private` (a write to a
private slot) or by `can_upgrade` (which, for a public candidate over a
public existing key, requires a level at least as high). -/
theorem put_key_mono (ss : Key → Key → Bool) (k : Key) (a : String) (st : Store)
    (wf : WellFormedStore st) :
    WellFormedStore (KeyManager.put_key ss k a st).1 ∧
      PubStep st (KeyManager.put_key ss k a st).1 := by
  unfold KeyManager.put_key
  split
  · exact ⟨wf, pubStep_refl st⟩
  · split
    · rename_i hmem hcond
      refine ⟨wellFormed_storePut k a wf, ?_⟩
      intro x kx hx
      by_cases hxa : x = a ∧ false = k.priv
      · refine ⟨k, ?_, ?_⟩
        · simp only [storePut, if_pos hxa]
        · obtain ⟨hx1, hx2⟩ := hxa
          subst hx1
          rw [Bool.or_eq_true] at hcond
          cases hcond with
          | inl hpriv => rw [← hx2] at hpriv; exact absurd hpriv (by simp)
          | inr hup =>
            rw [← hx2, hx] at hup
            have hkxp : kx.priv = false := wf x false kx hx
            simp only [can_upgrade, hkxp, ← hx2, Bool.or_self, Bool.false_eq_true,
              if_false, Bool.and_eq_true, decide_eq_true_eq] at hup
            exact hup.1
      · refine ⟨kx, ?_, Nat.le_refl _⟩
        simp only [storePut, if_neg hxa]
        exact hx
    · exact ⟨wf, pubStep_refl st⟩

theorem put_raw_key_mono (parse : String → Option Key × Option Key)
    (ss : Key → Key → Bool) (raw a : String) (vl : ValidationLevels) (st : Store)
    (wf : WellFormedStore st) :
    WellFormedStore (KeyManager.put_raw_key parse ss raw a vl st).1 ∧
      PubStep st (KeyManager.put_raw_key parse ss raw a vl st).1 := by
  unfold KeyManager.put_raw_key
  split
  · exact ⟨wf, pubStep_refl st⟩
  · rename_i s0 pk0 pv0 hp
    split
    · rename_i st1 e h2
      have h1 := put_key_mono ss { pk0 with validation := vl } a st wf
      rw [h2] at h1
      exact h1
    · rename_i st1 u h2
      have h1 := put_key_mono ss { pk0 with validation := vl } a st wf
      rw [h2] at h1
      cases pv0 with
      | none => exact h1
      | some pk =>
        have h3 := put_key_mono ss pk a st1 h1.1
        exact ⟨h3.1, pubStep_trans h1.2 h3.2⟩

theorem fetch_mono (parse : String → Option Key × Option Key)
    (ss : Key → Key → Bool) (uri a : String) (res : HttpResult) (st : Store)
    (wf : WellFormedStore st) :
    WellFormedStore (KeyManager.fetch_keys_from_server parse ss uri a res st).1 ∧
      PubStep st (KeyManager.fetch_keys_from_server parse ss uri a res st).1 := by
  unfold KeyManager.fetch_keys_from_server
  split
  · split <;> exact ⟨wf, pubStep_refl st⟩
  · exact ⟨wf, pubStep_refl st⟩
  · rename_i server_keys
    split
    · exact ⟨wf, pubStep_refl st⟩
    · rename_i armored harm
      split
      · exact ⟨wf, pubStep_refl st⟩
      · rename_i ud u domain hsp
        have h1 := put_raw_key_mono parse ss armored a
          (if get_domain uri = some domain then ValidationLevels.Provider_Trust
           else ValidationLevels.Weak_Chain) st wf
        split
        · rename_i st1 msg h2
          rw [h2] at h1
          exact h1
        · rename_i st1 r h2
          rw [h2] at h1
          exact h1

theorem get_key_mono (parse : String → Option Key × Option Key)
    (ss : Key → Key → Bool) (uri a : String) (priv fr : Bool)
    (res : HttpResult) (st : Store) (wf : WellFormedStore st) :
    WellFormedStore (KeyManager.get_key parse ss uri a priv fr res st).1 ∧
      PubStep st (KeyManager.get_key parse ss uri a priv fr res st).1 := by
  unfold KeyManager.get_key
  split
  · exact ⟨wf, pubStep_refl st⟩
  · split
    · exact ⟨wf, pubStep_refl st⟩
    · have h1 := fetch_mono parse ss uri a res st wf
      split
      · rename_i st1 e h2
        rw [h2] at h1
        exact h1
      · rename_i st1 u h2
        rw [h2] at h1
        split <;> exact h1

/-- When `get_key` succeeds, the returned key is the one recorded in
the (returned) store at the requested slot. -/
theorem get_key_found (parse : String → Option Key × Option Key)
    (ss : Key → Key → Bool) (uri a : String) (priv fr : Bool)
    (res : HttpResult) (st st' : Store) (key : Key)
    (h : KeyManager.get_key parse ss uri a priv fr res st = (st', Except.ok key)) :
    st' a priv = some key := by
  unfold KeyManager.get_key at h
  split at h
  · rename_i k0 hk0
    injection h with ha hb
    injection hb with hb
    rw [← ha, ← hb]
    exact hk0
  · split at h
    · injection h with ha hb
      exact Except.noConfusion hb
    · rename_i hmiss hcond
      split at h
      · injection h with ha hb
        exact Except.noConfusion hb
      · split at h
        · rename_i st1 u h2 k0 hk0
          injection h with ha hb
          injection hb with hb
          have hpriv : priv = false := by
            cases priv with
            | false => rfl
            | true => exact absurd (Or.inr rfl) hcond
          rw [← ha, ← hb, hpriv]
          exact hk0
        · injection h with ha hb
          exact Except.noConfusion hb

/-- `get_key` with `private=True` never writes to the store: a local
hit returns it unchanged and a local miss fails before fetching. -/
theorem get_key_private_store (parse : String → Option Key × Option Key)
    (ss : Key → Key → Bool) (uri s : String) (fr : Bool)
    (res : HttpResult) (st : Store) :
    (KeyManager.get_key parse ss uri s true fr res st).1 = st := by
  unfold KeyManager.get_key
  split
  · rfl
  · split
    · rfl
    · rename_i h
      exact absurd (Or.inr rfl) h

/-- Overwriting the public slot of `a` with a key of at least the level
of the key already there is a `PubStep`. -/
theorem pubStep_storePut_same {st : Store} {k k2 : Key} {a : String}
    (hst : st a false = some k)
    (hlvl : level k.validation ≤ level k2.validation) :
    PubStep st (storePut st k2 a) := by
  intro x kx hx
  by_cases hc : x = a ∧ false = k2.priv
  · obtain ⟨h1, h2⟩ := hc
    subst h1
    rw [hst, Option.some.injEq] at hx
    refine ⟨k2, ?_, ?_⟩
    · simp [storePut, ← h2]
    · rw [← hx]
      exact hlvl
  · refine ⟨kx, ?_, Nat.le_refl _⟩
    simp only [storePut, if_neg hc]
    exact hx

/-- `KeyManager.encrypt` never lowers the validation level of any
public slot: its resolutions write only through the policy-checked
path, and its own final write re-stores the recipient key it just read,
unchanged except for the `encr_used` flag. -/
theorem encrypt_mono (parse : String → Option Key × Option Key)
    (ss : Key → Key → Bool) (uri : String)
    (engine : String → Key → Option Key → String) (data a : String)
    (sgn : Option String) (fr : Bool) (res : HttpResult) (st : Store)
    (wf : WellFormedStore st) :
    WellFormedStore (KeyManager.encrypt parse ss uri engine data a sgn fr res st).1 ∧
      PubStep st (KeyManager.encrypt parse ss uri engine data a sgn fr res st).1 := by
  unfold KeyManager.encrypt
  have h1 := get_key_mono parse ss uri a false fr res st wf
  cases hg : KeyManager.get_key parse ss uri a false fr res st with
  | mk st1 rpub =>
    rw [hg] at h1
    dsimp only
    cases sgn with
    | none =>
      dsimp only
      cases rpub with
      | error e => exact h1
      | ok pubkey =>
        have hfound := get_key_found parse ss uri a false fr res st st1 pubkey hg
        show WellFormedStore (storePut st1 { pubkey with encr_used := true } a) ∧
          PubStep st (storePut st1 { pubkey with encr_used := true } a)
        refine ⟨wellFormed_storePut _ a h1.1, pubStep_trans h1.2 ?_⟩
        exact pubStep_storePut_same hfound (Nat.le_refl _)
    | some s =>
      dsimp only
      have hps := get_key_private_store parse ss uri s true res st1
      cases hg2 : KeyManager.get_key parse ss uri s true true res st1 with
      | mk st2 rpriv2 =>
        rw [hg2] at hps
        dsimp only at hps
        subst hps
        cases rpriv2 with
        | error e =>
          try dsimp only
          cases rpub with
          | error e2 => exact h1
          | ok pubkey => exact h1
        | ok k =>
          try dsimp only
          cases rpub with
          | error e2 => exact h1
          | ok pubkey =>
            have hfound := get_key_found parse ss uri a false fr res st st2 pubkey hg
            show WellFormedStore (storePut st2 { pubkey with encr_used := true } a) ∧
              PubStep st (storePut st2 { pubkey with encr_used := true } a)
            refine ⟨wellFormed_storePut _ a h1.1, pubStep_trans h1.2 ?_⟩
            exact pubStep_storePut_same hfound (Nat.le_refl _)

/-- `KeyManager.verify` never lowers the validation level of any public
slot: its resolution writes only through the policy-checked path and
its own final write re-stores the key it just read, unchanged except
for the `sign_used` flag. -/
theorem verify_mono (parse : String → Option Key × Option Key)
    (ss : Key → Key → Bool) (uri : String) (engine : String → Key → Bool)
    (data a : String) (fr : Bool) (res : HttpResult) (st : Store)
    (wf : WellFormedStore st) :
    WellFormedStore (KeyManager.verify parse ss uri engine data a fr res st).1 ∧
      PubStep st (KeyManager.verify parse ss uri engine data a fr res st).1 := by
  unfold KeyManager.verify
  have h1 := get_key_mono parse ss uri a false fr res st wf
  cases hg : KeyManager.get_key parse ss uri a false fr res st with
  | mk st1 rpub =>
    rw [hg] at h1
    cases rpub with
    | error e => exact h1
    | ok pubkey =>
      dsimp only
      have hfound := get_key_found parse ss uri a false fr res st st1 pubkey hg
      split
      · refine ⟨wellFormed_storePut _ a h1.1, pubStep_trans h1.2 ?_⟩
        exact pubStep_storePut_same hfound (Nat.le_refl _)
      · exact h1

/-! Claim theorems. -/

/-- Claim C3: for every key k and every address a, if a is not among
k's owned addresses then put_key(k, a) fails with `KeyAddressMismatch`
and leaves the local store untouched (in the source the membership test
is the first statement of `put_key`, before any store lookup or write);
and put_key never raises `KeyAddressMismatch` when a is among k's owned
addresses. -/
theorem c3_put_key_address_mismatch (ss : Key → Key → Bool) (k : Key)
    (a : String) (st : Store) :
    (a ∉ k.address →
      KeyManager.put_key ss k a st
        = (st, Except.error (KMError.KeyAddressMismatch
            ("UID " ++ String.intercalate ", " k.address ++
             " found, but expected " ++ a))))
    ∧ (a ∈ k.address →
      ∀ d, (KeyManager.put_key ss k a st).2
        ≠ Except.error (KMError.KeyAddressMismatch d)) := by
  constructor
  · intro h
    unfold KeyManager.put_key
    rw [if_pos h]
  · intro h d
    unfold KeyManager.put_key
    rw [if_neg (not_not_intro h)]
    split <;> simp

/-- Witness for C3 at concrete inputs: storing `exKeyA` (whose only uid
is "a") under "b" is the address-mismatch failure on an unchanged
store, and storing it under "a" is never an address mismatch. -/
theorem c3_put_key_address_mismatch_witness :
    (KeyManager.put_key ss_all exKeyA "b" store_empty
      = (store_empty, Except.error
          (KMError.KeyAddressMismatch "UID a found, but expected b")))
    ∧ ∀ d, (KeyManager.put_key ss_all exKeyA "a" store_empty).2
        ≠ Except.error (KMError.KeyAddressMismatch d) :=
  ⟨(c3_put_key_address_mismatch ss_all exKeyA "b" store_empty).1 (by decide),
   fun d => (c3_put_key_address_mismatch ss_all exKeyA "a" store_empty).2 (by decide) d⟩

/-- Claim C4: for every private candidate key k whose owned addresses
include a, put_key(k, a) never fails with `KeyNotValidUpgrade`: the
`can_upgrade` comparison is short-circuited by `key.private` and the
write is performed regardless of the validation levels of the candidate
and of any stored private key for a. -/
theorem c4_put_key_private_skips_upgrade (ss : Key → Key → Bool) (k : Key)
    (a : String) (st : Store) (hpriv : k.priv = true) (hmem : a ∈ k.address) :
    KeyManager.put_key ss k a st = (storePut st k a, Except.ok ()) := by
  unfold KeyManager.put_key
  rw [if_neg (not_not_intro hmem), hpriv]
  simp

/-- Witness for C4: storing the private key `privA` under "a" over a
store that already holds a private key for "a" succeeds, with a
supersession hook rejecting everything. -/
theorem c4_put_key_private_skips_upgrade_witness :
    KeyManager.put_key (fun _ _ => false) privA "a" st_ab
      = (storePut st_ab privA "a", Except.ok ()) :=
  c4_put_key_private_skips_upgrade (fun _ _ => false) privA "a" st_ab rfl (by decide)

/-- Claim C5: get_key(address, ktype, private, fetch_remote) returns
the locally stored key when one exists; on a local miss it fails with
`KeyNotFound` whenever fetch_remote is false or private is true;
otherwise it invokes the remote resolver and, on the resolver's
success, returns the public key re-read from the local store, and on
the resolver's `KeyNotFound` failure propagates it. -/
theorem c5_get_key_resolution (parse : String → Option Key × Option Key)
    (ss : Key → Key → Bool) (uri a : String) (p fr : Bool)
    (res : HttpResult) (st : Store) :
    (∀ k, st a p = some k →
      KeyManager.get_key parse ss uri a p fr res st = (st, Except.ok k))
    ∧ (st a p = none → (fr = false ∨ p = true) →
      KeyManager.get_key parse ss uri a p fr res st
        = (st, Except.error (KMError.KeyNotFound a)))
    ∧ (st a p = none → fr = true → p = false →
      ∀ st1 k,
        KeyManager.fetch_keys_from_server parse ss uri a res st = (st1, Except.ok ()) →
        st1 a false = some k →
        KeyManager.get_key parse ss uri a p fr res st = (st1, Except.ok k))
    ∧ (st a p = none → fr = true → p = false →
      ∀ st1 d,
        KeyManager.fetch_keys_from_server parse ss uri a res st
          = (st1, Except.error (KMError.KeyNotFound d)) →
        KeyManager.get_key parse ss uri a p fr res st
          = (st1, Except.error (KMError.KeyNotFound d))) := by
  refine ⟨?_, ?_, ?_, ?_⟩
  · intro k hk
    unfold KeyManager.get_key
    rw [hk]
  · intro hk hc
    unfold KeyManager.get_key
    rw [hk, if_pos hc]
  · intro hk hfr hp st1 k hfetch hread
    subst hfr
    subst hp
    unfold KeyManager.get_key
    rw [hk, if_neg (by simp), hfetch]
    dsimp only
    rw [hread]
  · intro hk hfr hp st1 d hfetch
    subst hfr
    subst hp
    unfold KeyManager.get_key
    rw [hk, if_neg (by simp), hfetch]

/-- Witness for C5, one concrete instance per conjunct: a local hit on
`st_ab`; a local-miss failure with fetch_remote=false; a remote fetch
of "b@X.org" that stores `pubX` and returns it; and a 404 propagated
as `KeyNotFound`. -/
theorem c5_get_key_resolution_witness :
    (KeyManager.get_key parse_c6 ss_all "https://x.org" "a" false false
        (HttpResult.success []) st_ab = (st_ab, Except.ok pubA))
    ∧ (KeyManager.get_key parse_c6 ss_all "https://x.org" "c" false false
        (HttpResult.success []) st_ab
        = (st_ab, Except.error (KMError.KeyNotFound "c")))
    ∧ (KeyManager.get_key parse_c6 ss_all "https://x.org" "b@X.org" false true
        (HttpResult.success [("openpgp", "ARMOR")]) store_empty
        = (storePut store_empty pubX "b@X.org", Except.ok pubX))
    ∧ (KeyManager.get_key parse_c6 ss_all "https://x.org" "b@X.org" false true
        (HttpResult.httpError 404 "m") store_empty
        = (store_empty, Except.error (KMError.KeyNotFound "b@X.org"))) := by
  refine ⟨?_, ?_, ?_, ?_⟩
  · exact (c5_get_key_resolution parse_c6 ss_all "https://x.org" "a" false false
      (HttpResult.success []) st_ab).1 pubA rfl
  · exact (c5_get_key_resolution parse_c6 ss_all "https://x.org" "c" false false
      (HttpResult.success []) st_ab).2.1 rfl (Or.inl rfl)
  · exact (c5_get_key_resolution parse_c6 ss_all "https://x.org" "b@X.org" false true
      (HttpResult.success [("openpgp", "ARMOR")]) store_empty).2.2.1 rfl rfl rfl
      (storePut store_empty pubX "b@X.org") pubX rfl rfl
  · exact (c5_get_key_resolution parse_c6 ss_all "https://x.org" "b@X.org" false true
      (HttpResult.httpError 404 "m") store_empty).2.2.2 rfl rfl rfl
      store_empty "b@X.org" rfl

/-- Claim C2: decrypt(data, address, ktype, verify=v) with a resolvable
private key for address but no resolvable public key for v succeeds,
returning the decrypted plaintext paired with a KeyNotFound(v)
signature outcome; decrypt with no resolvable private key for address
fails the whole call with KeyNotFound.  "No resolvable public key for
v" is a local miss together with a 404 from the directory (the same
directory response makes the remote fallback fail for any address). -/
theorem c2_decrypt_optional_verify (parse : String → Option Key × Option Key)
    (ss : Key → Key → Bool) (uri : String)
    (engine : String → Key → Option Key → String × Bool)
    (data a v msg : String) (fr : Bool) (st : Store) :
    (∀ pk, st a true = some pk → st v false = none →
      KeyManager.decrypt parse ss uri engine data a (some v) fr
          (HttpResult.httpError 404 msg) st
        = (st, Except.ok ((engine data pk none).1,
            SignatureOutcome.keyNotFound (some v))))
    ∧ (st a true = none →
      KeyManager.decrypt parse ss uri engine data a (some v) fr
          (HttpResult.httpError 404 msg) st
        = (st, Except.error (KMError.KeyNotFound a))) := by
  constructor
  · intro pk hpk hv
    have hg : KeyManager.get_key parse ss uri a true true
        (HttpResult.httpError 404 msg) st = (st, Except.ok pk) := by
      unfold KeyManager.get_key
      rw [hpk]
    have hg2 : KeyManager.get_key parse ss uri v false fr
        (HttpResult.httpError 404 msg) st
        = (st, Except.error (KMError.KeyNotFound v)) := by
      unfold KeyManager.get_key
      rw [hv]
      cases fr <;> rfl
    unfold KeyManager.decrypt
    rw [hg]
    dsimp only
    rw [hg2]
  · intro ha
    have hg : KeyManager.get_key parse ss uri a true true
        (HttpResult.httpError 404 msg) st
        = (st, Except.error (KMError.KeyNotFound a)) := by
      unfold KeyManager.get_key
      rw [ha]
      rfl
    unfold KeyManager.decrypt
    rw [hg]
    dsimp only
    cases hv : st v false with
    | some k =>
      have hg2 : KeyManager.get_key parse ss uri v false fr
          (HttpResult.httpError 404 msg) st = (st, Except.ok k) := by
        unfold KeyManager.get_key
        rw [hv]
      rw [hg2]
    | none =>
      have hg2 : KeyManager.get_key parse ss uri v false fr
          (HttpResult.httpError 404 msg) st
          = (st, Except.error (KMError.KeyNotFound v)) := by
        unfold KeyManager.get_key
        rw [hv]
        cases fr <;> rfl
      rw [hg2]

/-- Witness for C2: on `st_ab` (which has a private key for "a" and no
key for "c"), decrypt of "ct" for "a" verifying against "c" succeeds
with a KeyNotFound "c" outcome; decrypt for "c" (no private key) fails
with KeyNotFound "c". -/
theorem c2_decrypt_optional_verify_witness :
    (KeyManager.decrypt parse_none ss_all "u" engine_sig_ok "ct" "a" (some "c") true
        (HttpResult.httpError 404 "m") st_ab
      = (st_ab, Except.ok ("pt", SignatureOutcome.keyNotFound (some "c"))))
    ∧ (KeyManager.decrypt parse_none ss_all "u" engine_sig_ok "ct" "c" (some "a") true
        (HttpResult.httpError 404 "m") st_ab
      = (st_ab, Except.error (KMError.KeyNotFound "c"))) :=
  ⟨(c2_decrypt_optional_verify parse_none ss_all "u" engine_sig_ok "ct" "a" "c" "m"
      true st_ab).1 privA rfl rfl,
   (c2_decrypt_optional_verify parse_none ss_all "u" engine_sig_ok "ct" "c" "a" "m"
      true st_ab).2 rfl⟩

/-- Claim C9: when decrypt verifies a signature successfully, the
verifying public key with its sign_used flag set is persisted bound to
the decrypt call's own address argument rather than the verify address,
and this write goes directly to the scheme's put_key (`storePut`),
bypassing the orchestrator's checks: the first conjunct needs no
hypothesis that `address` is a uid of the key nor any upgrade-policy
hypothesis, and the second conjunct shows the orchestrator's put_key
would have rejected the same write whenever `address` is not among the
key's uids. -/
theorem c9_decrypt_persists_under_address (parse : String → Option Key × Option Key)
    (ss : Key → Key → Bool) (uri : String)
    (engine : String → Key → Option Key → String × Bool)
    (data a v pt : String) (fr : Bool) (res : HttpResult) (st : Store)
    (pk pubk : Key) (hpriv : st a true = some pk) (hpub : st v false = some pubk)
    (heng : engine data pk (some pubk) = (pt, true)) :
    (KeyManager.decrypt parse ss uri engine data a (some v) fr res st
      = (storePut st { pubk with sign_used := true } a,
         Except.ok (pt, SignatureOutcome.verifiedKey { pubk with sign_used := true })))
    ∧ (a ∉ pubk.address →
      ∃ d, (KeyManager.put_key ss { pubk with sign_used := true } a st).2
        = Except.error (KMError.KeyAddressMismatch d)) := by
  constructor
  · have hg : KeyManager.get_key parse ss uri a true true res st
        = (st, Except.ok pk) := by
      unfold KeyManager.get_key
      rw [hpriv]
    have hg2 : KeyManager.get_key parse ss uri v false fr res st
        = (st, Except.ok pubk) := by
      unfold KeyManager.get_key
      rw [hpub]
    unfold KeyManager.decrypt
    rw [hg]
    dsimp only
    rw [hg2]
    dsimp only
    rw [heng]
    exact rfl
  · intro hmem
    refine ⟨"UID " ++ String.intercalate ", " pubk.address ++
      " found, but expected " ++ a, ?_⟩
    unfold KeyManager.put_key
    rw [if_pos (by simpa using hmem)]

/-- Witness for C9: decrypting for "a" while verifying against "b" on
`st_ab` persists `pubB` (whose only uid is "b") under "a", even though
the orchestrator's put_key would reject that binding. -/
theorem c9_decrypt_persists_under_address_witness :
    (KeyManager.decrypt parse_none ss_all "u" engine_sig_ok "ct" "a" (some "b") true
        (HttpResult.httpError 404 "m") st_ab
      = (storePut st_ab { pubB with sign_used := true } "a",
         Except.ok ("pt", SignatureOutcome.verifiedKey { pubB with sign_used := true })))
    ∧ ∃ d, (KeyManager.put_key ss_all { pubB with sign_used := true } "a" st_ab).2
        = Except.error (KMError.KeyAddressMismatch d) :=
  ⟨(c9_decrypt_persists_under_address parse_none ss_all "u" engine_sig_ok "ct" "a" "b"
      "pt" true (HttpResult.httpError 404 "m") st_ab privA pubB rfl rfl rfl).1,
   (c9_decrypt_persists_under_address parse_none ss_all "u" engine_sig_ok "ct" "a" "b"
      "pt" true (HttpResult.httpError 404 "m") st_ab privA pubB rfl rfl rfl).2
     (by decide)⟩

/-- Claim C8: when both key resolutions launched by encrypt fail, the
error surfaced to the caller is the recipient-public-key KeyNotFound
(the must-exist branch), not the signer-private-key failure; likewise
for decrypt, when both resolutions fail (the optional verify resolution
failing with KeyNotFound, which is converted in-band), the surfaced
error is the private key's KeyNotFound.  `gatherResults([dpub, dpriv])`
over already-failed deferreds fires the failure of `dpub` first. -/
theorem c8_gather_error_precedence (parse : String → Option Key × Option Key)
    (ss : Key → Key → Bool) (uri : String)
    (engine_e : String → Key → Option Key → String)
    (engine_d : String → Key → Option Key → String × Bool)
    (data a s v msg : String) (st : Store) :
    (st a false = none → st s true = none →
      KeyManager.encrypt parse ss uri engine_e data a (some s) true
          (HttpResult.httpError 404 msg) st
        = (st, Except.error (KMError.KeyNotFound a)))
    ∧ (st v false = none → st a true = none →
      KeyManager.decrypt parse ss uri engine_d data a (some v) true
          (HttpResult.httpError 404 msg) st
        = (st, Except.error (KMError.KeyNotFound a))) := by
  constructor
  · intro ha hs
    have hg : KeyManager.get_key parse ss uri a false true
        (HttpResult.httpError 404 msg) st
        = (st, Except.error (KMError.KeyNotFound a)) := by
      unfold KeyManager.get_key
      rw [ha]
      rfl
    have hg2 : KeyManager.get_key parse ss uri s true true
        (HttpResult.httpError 404 msg) st
        = (st, Except.error (KMError.KeyNotFound s)) := by
      unfold KeyManager.get_key
      rw [hs]
      rfl
    unfold KeyManager.encrypt
    rw [hg]
    dsimp only
    rw [hg2]
  · intro hv ha
    have hg : KeyManager.get_key parse ss uri a true true
        (HttpResult.httpError 404 msg) st
        = (st, Except.error (KMError.KeyNotFound a)) := by
      unfold KeyManager.get_key
      rw [ha]
      rfl
    have hg2 : KeyManager.get_key parse ss uri v false true
        (HttpResult.httpError 404 msg) st
        = (st, Except.error (KMError.KeyNotFound v)) := by
      unfold KeyManager.get_key
      rw [hv]
      rfl
    unfold KeyManager.decrypt
    rw [hg]
    dsimp only
    rw [hg2]

/-- Witness for C8: on `st_ab`, encrypting for "c" signed by "d" (both
unresolvable) surfaces KeyNotFound "c" — the recipient key's failure —
and decrypting for "d" verifying against "c" (both unresolvable)
surfaces KeyNotFound "d" — the private key's failure. -/
theorem c8_gather_error_precedence_witness :
    (KeyManager.encrypt parse_none ss_all "u" (fun _ _ _ => "enc") "ct" "c" (some "d")
        true (HttpResult.httpError 404 "m") st_ab
      = (st_ab, Except.error (KMError.KeyNotFound "c")))
    ∧ (KeyManager.decrypt parse_none ss_all "u" engine_sig_ok "ct" "d" (some "c")
        true (HttpResult.httpError 404 "m") st_ab
      = (st_ab, Except.error (KMError.KeyNotFound "d"))) :=
  ⟨(c8_gather_error_precedence parse_none ss_all "u" (fun _ _ _ => "enc") engine_sig_ok
      "ct" "c" "d" "c" "m" st_ab).1 rfl rfl,
   (c8_gather_error_precedence parse_none ss_all "u" (fun _ _ _ => "enc") engine_sig_ok
      "ct" "d" "d" "c" "m" st_ab).2 rfl rfl⟩

/-- Claim C10: for every address string that does not contain exactly
one '@' character, a remote key fetch never stores a key and never
assigns a validation level, even if the directory response contains an
openpgp key: `_split_email` returns None, the tuple unpacking raises,
and the exception is caught and normalized to a KeyNotFound failure,
with the store returned unchanged. -/
theorem c10_malformed_address_never_stores (address : String)
    (h : address.toList.count '@' ≠ 1) :
    split_email address = none
    ∧ ∀ (parse : String → Option Key × Option Key) (ss : Key → Key → Bool)
        (uri : String) (ks : List (String × String)) (armored : String) (st : Store),
        lookupKey "openpgp" ks = some armored →
        KeyManager.fetch_keys_from_server parse ss uri address (HttpResult.success ks) st
          = (st, Except.error (KMError.KeyNotFound "NoneType object is not iterable")) := by
  have hsp : split_email address = none := by
    unfold split_email
    rw [if_pos h]
  refine ⟨hsp, ?_⟩
  intro parse ss uri ks armored st hlk
  unfold KeyManager.fetch_keys_from_server
  dsimp only
  rw [hlk]
  dsimp only
  rw [hsp]

/-- Witness for C10 at the address "a@b@c" (two '@'): splitting fails
and a directory response carrying an openpgp key is normalized to
KeyNotFound without touching the store. -/
theorem c10_malformed_address_never_stores_witness :
    split_email "a@b@c" = none
    ∧ KeyManager.fetch_keys_from_server parse_c6 ss_all "https://x.org" "a@b@c"
        (HttpResult.success [("openpgp", "ARMOR")]) store_empty
      = (store_empty,
         Except.error (KMError.KeyNotFound "NoneType object is not iterable")) :=
  ⟨(c10_malformed_address_never_stores "a@b@c" (by decide)).1,
   (c10_malformed_address_never_stores "a@b@c" (by decide)).2 parse_c6 ss_all
     "https://x.org" [("openpgp", "ARMOR")] "ARMOR" store_empty rfl⟩

/-- `KeyManager.fetch_key` writes only through the policy-checked
`put_key`, so it never lowers the validation level of a public slot. -/
theorem fetch_key_mono (parse : String → Option Key × Option Key)
    (ss : Key → Key → Bool) (a uri : String) (vl : ValidationLevels)
    (rok : Bool) (content : String) (st : Store) (wf : WellFormedStore st) :
    WellFormedStore (KeyManager.fetch_key parse ss a uri vl rok content st).1 ∧
      PubStep st (KeyManager.fetch_key parse ss a uri vl rok content st).1 := by
  unfold KeyManager.fetch_key
  split
  · exact ⟨wf, pubStep_refl st⟩
  · split
    · exact ⟨wf, pubStep_refl st⟩
    · rename_i pub hpub
      exact put_key_mono ss { pub with validation := vl } a st wf

/-- Claim C1 (amended): every write that goes through the orchestrator's
put_key path — put_key itself, put_raw_key, fetch_key, and the remote
fetch inside get_key — is subject to the upgrade policy, and encrypt and
verify persist only a usage-flag update of the key they just read, so
under all of these operations the validation level recorded for an
address never decreases (on a well-formed store).  decrypt is excluded
from the list: its signature-success write goes to the scheme's put_key
directly, bypassing the policy, and can lower the recorded level (see
the counterexample). -/
theorem c1_policy_writes_monotone :
    (∀ (ss : Key → Key → Bool) (k : Key) (a : String) (st : Store),
      WellFormedStore st → PubStep st (KeyManager.put_key ss k a st).1)
    ∧ (∀ (parse : String → Option Key × Option Key) (ss : Key → Key → Bool)
        (raw a : String) (vl : ValidationLevels) (st : Store),
      WellFormedStore st → PubStep st (KeyManager.put_raw_key parse ss raw a vl st).1)
    ∧ (∀ (parse : String → Option Key × Option Key) (ss : Key → Key → Bool)
        (a uri : String) (vl : ValidationLevels) (rok : Bool) (content : String)
        (st : Store),
      WellFormedStore st →
        PubStep st (KeyManager.fetch_key parse ss a uri vl rok content st).1)
    ∧ (∀ (parse : String → Option Key × Option Key) (ss : Key → Key → Bool)
        (uri a : String) (p fr : Bool) (res : HttpResult) (st : Store),
      WellFormedStore st → PubStep st (KeyManager.get_key parse ss uri a p fr res st).1)
    ∧ (∀ (parse : String → Option Key × Option Key) (ss : Key → Key → Bool)
        (uri : String) (engine : String → Key → Option Key → String)
        (data a : String) (sgn : Option String) (fr : Bool) (res : HttpResult)
        (st : Store),
      WellFormedStore st →
        PubStep st (KeyManager.encrypt parse ss uri engine data a sgn fr res st).1)
    ∧ (∀ (parse : String → Option Key × Option Key) (ss : Key → Key → Bool)
        (uri : String) (engine : String → Key → Bool) (data a : String)
        (fr : Bool) (res : HttpResult) (st : Store),
      WellFormedStore st →
        PubStep st (KeyManager.verify parse ss uri engine data a fr res st).1) := by
  refine ⟨?_, ?_, ?_, ?_, ?_, ?_⟩
  · exact fun ss k a st wf => (put_key_mono ss k a st wf).2
  · exact fun parse ss raw a vl st wf => (put_raw_key_mono parse ss raw a vl st wf).2
  · exact fun parse ss a uri vl rok content st wf =>
      (fetch_key_mono parse ss a uri vl rok content st wf).2
  · exact fun parse ss uri a p fr res st wf => (get_key_mono parse ss uri a p fr res st wf).2
  · exact fun parse ss uri engine data a sgn fr res st wf =>
      (encrypt_mono parse ss uri engine data a sgn fr res st wf).2
  · exact fun parse ss uri engine data a fr res st wf =>
      (verify_mono parse ss uri engine data a fr res st wf).2

/-- Witness for C1 (amended), instantiating each conjunct on the empty
(trivially well-formed) store with concrete arguments. -/
theorem c1_policy_writes_monotone_witness :
    PubStep store_empty (KeyManager.put_key ss_all exKeyA "a" store_empty).1
    ∧ PubStep store_empty
        (KeyManager.put_raw_key parse_c6 ss_all "ARMOR" "b@X.org"
          ValidationLevels.Weak_Chain store_empty).1
    ∧ PubStep store_empty
        (KeyManager.fetch_key parse_c6 ss_all "b@X.org" "https://x.org"
          ValidationLevels.Weak_Chain true "ARMOR" store_empty).1
    ∧ PubStep store_empty
        (KeyManager.get_key parse_c6 ss_all "https://x.org" "b@X.org" false true
          (HttpResult.success [("openpgp", "ARMOR")]) store_empty).1
    ∧ PubStep store_empty
        (KeyManager.encrypt parse_c6 ss_all "https://x.org" (fun _ _ _ => "enc") "ct"
          "b@X.org" none true (HttpResult.success [("openpgp", "ARMOR")])
          store_empty).1
    ∧ PubStep store_empty
        (KeyManager.verify parse_c6 ss_all "https://x.org" (fun _ _ => true) "ct"
          "b@X.org" true (HttpResult.success [("openpgp", "ARMOR")]) store_empty).1 :=
  ⟨c1_policy_writes_monotone.1 ss_all exKeyA "a" store_empty wellFormed_empty,
   c1_policy_writes_monotone.2.1 parse_c6 ss_all "ARMOR" "b@X.org"
     ValidationLevels.Weak_Chain store_empty wellFormed_empty,
   c1_policy_writes_monotone.2.2.1 parse_c6 ss_all "b@X.org" "https://x.org"
     ValidationLevels.Weak_Chain true "ARMOR" store_empty wellFormed_empty,
   c1_policy_writes_monotone.2.2.2.1 parse_c6 ss_all "https://x.org" "b@X.org" false
     true (HttpResult.success [("openpgp", "ARMOR")]) store_empty wellFormed_empty,
   c1_policy_writes_monotone.2.2.2.2.1 parse_c6 ss_all "https://x.org"
     (fun _ _ _ => "enc") "ct" "b@X.org" none true
     (HttpResult.success [("openpgp", "ARMOR")]) store_empty wellFormed_empty,
   c1_policy_writes_monotone.2.2.2.2.2 parse_c6 ss_all "https://x.org"
     (fun _ _ => true) "ct" "b@X.org" true
     (HttpResult.success [("openpgp", "ARMOR")]) store_empty wellFormed_empty⟩

/-- Counterexample to claim C1 as stated: decrypt is one of the listed
public operations, and its signature-success write is NOT subject to
the upgrade policy — on `st_ab`, which records the Provider_Trust key
`pubA` for "a", a successful decrypt verifying against "b" overwrites
the public key recorded for "a" with the Weak_Chain key `pubB`: the
validation level recorded for "a" decreases from 1 to 0. -/
theorem c1_decrypt_lowers_validation :
    st_ab "a" false = some pubA
    ∧ level pubA.validation = 1
    ∧ (KeyManager.decrypt parse_none ss_all "u" engine_sig_ok "ct" "a" (some "b") true
        (HttpResult.httpError 404 "m") st_ab).2
      = Except.ok ("pt", SignatureOutcome.verifiedKey { pubB with sign_used := true })
    ∧ (KeyManager.decrypt parse_none ss_all "u" engine_sig_ok "ct" "a" (some "b") true
        (HttpResult.httpError 404 "m") st_ab).1 "a" false
      = some { pubB with sign_used := true }
    ∧ level ({ pubB with sign_used := true } : Key).validation = 0 :=
  ⟨rfl, rfl, rfl, rfl, rfl⟩

/-- Counterexample to claim C6 as stated: with nickserver URI
"https://X.org" — whose host component is the literal substring "X.org"
— and address "b@X.org" — whose domain part is the same string "X.org",
so the two are equal under case-sensitive exact comparison — the
resolver nevertheless assigns Weak_Chain, not Provider_Trust:
`_get_domain` is `urlparse(url).hostname`, which lowercases the host,
so the comparison is made against "x.org" and fails. -/
theorem c6_counterexample_uppercase_host :
    split_email "b@X.org" = some ("b", "X.org")
    ∧ "https://X.org" = "https://" ++ "X.org"
    ∧ get_domain "https://X.org" = some "x.org"
    ∧ KeyManager.fetch_keys_from_server parse_c6 ss_all "https://X.org" "b@X.org"
        (HttpResult.success [("openpgp", "ARMOR")]) store_empty
      = (storePut store_empty pubX "b@X.org", Except.ok ())
    ∧ (storePut store_empty pubX "b@X.org") "b@X.org" false = some pubX
    ∧ pubX.validation = ValidationLevels.Weak_Chain :=
  ⟨by decide, rfl, by decide, rfl, rfl, rfl⟩

/-- Claim C6 (amended): for every address for which the directory
response contains an openpgp key, the resolver assigns Provider_Trust
exactly when the address's domain part equals — by case-sensitive exact
string comparison, with no suffix or wildcard matching — the LOWERCASED
host component of the configured nickserver URI (`urlparse(...).hostname`
lowercases the host), and assigns Weak_Chain in every other case; the
assigned level is recorded on the stored key. -/
theorem c6_validation_level_assignment (parse : String → Option Key × Option Key)
    (ss : Key → Key → Bool) (uri a u dom armored : String)
    (ks : List (String × String)) (pub : Key) (st : Store)
    (hlk : lookupKey "openpgp" ks = some armored)
    (hsp : split_email a = some (u, dom))
    (hparse : parse armored = (some pub, none))
    (hpriv : pub.priv = false)
    (hmem : a ∈ pub.address)
    (hold : st a false = none) :
    KeyManager.fetch_keys_from_server parse ss uri a (HttpResult.success ks) st
      = (storePut st
          { pub with validation :=
              if get_domain uri = some dom then ValidationLevels.Provider_Trust
              else ValidationLevels.Weak_Chain } a,
         Except.ok ()) := by
  have hput : KeyManager.put_raw_key parse ss armored a
      (if get_domain uri = some dom then ValidationLevels.Provider_Trust
       else ValidationLevels.Weak_Chain) st
      = (storePut st
          { pub with validation :=
              if get_domain uri = some dom then ValidationLevels.Provider_Trust
              else ValidationLevels.Weak_Chain } a,
         Except.ok ()) := by
    unfold KeyManager.put_raw_key
    rw [hparse]
    dsimp only
    unfold KeyManager.put_key
    rw [if_neg (not_not_intro (by simpa using hmem))]
    dsimp only
    rw [hpriv, hold]
    simp [can_upgrade]
  unfold KeyManager.fetch_keys_from_server
  dsimp only
  rw [hlk]
  dsimp only
  rw [hsp]
  dsimp only
  rw [hput]

/-- Witness for C6 (amended) at the counterexample's inputs: the
lowercased host "x.org" differs from the domain "X.org", so the
conditional selects Weak_Chain. -/
theorem c6_validation_level_assignment_witness :
    KeyManager.fetch_keys_from_server parse_c6 ss_all "https://X.org" "b@X.org"
        (HttpResult.success [("openpgp", "ARMOR")]) store_empty
      = (storePut store_empty
          { pubX with validation :=
              if get_domain "https://X.org" = some "X.org" then
                ValidationLevels.Provider_Trust
              else ValidationLevels.Weak_Chain } "b@X.org",
         Except.ok ()) :=
  c6_validation_level_assignment parse_c6 ss_all "https://X.org" "b@X.org" "b" "X.org"
    "ARMOR" [("openpgp", "ARMOR")] pubX store_empty rfl (by decide) rfl rfl
    (by decide) rfl

/-- The only failures `put_key` produces are `KeyAddressMismatch` and
`KeyNotValidUpgrade`. -/
theorem put_key_error_kinds (ss : Key → Key → Bool) (k : Key) (a : String)
    (st st1 : Store) (e : KMError)
    (h : KeyManager.put_key ss k a st = (st1, Except.error e)) :
    (∃ d, e = KMError.KeyAddressMismatch d) ∨ (∃ d, e = KMError.KeyNotValidUpgrade d) := by
  unfold KeyManager.put_key at h
  split at h
  · injection h with ha hb
    injection hb with hb
    exact Or.inl ⟨_, hb.symm⟩
  · split at h
    · injection h with ha hb
      exact Except.noConfusion hb
    · injection h with ha hb
      injection hb with hb
      exact Or.inr ⟨_, hb.symm⟩

/-- The only failures `put_raw_key` produces are a synchronous Python
exception (no public key in the parse), `KeyAddressMismatch` and
`KeyNotValidUpgrade`. -/
theorem put_raw_key_error_kinds (parse : String → Option Key × Option Key)
    (ss : Key → Key → Bool) (raw a : String) (vl : ValidationLevels)
    (st st1 : Store) (e : KMError)
    (h : KeyManager.put_raw_key parse ss raw a vl st = (st1, Except.error e)) :
    (∃ d, e = KMError.pyError d) ∨ (∃ d, e = KMError.KeyAddressMismatch d) ∨
      (∃ d, e = KMError.KeyNotValidUpgrade d) := by
  unfold KeyManager.put_raw_key at h
  split at h
  · injection h with ha hb
    injection hb with hb
    exact Or.inl ⟨_, hb.symm⟩
  · rename_i s0 pk0 pv0 hp
    split at h
    · rename_i st2 e2 h2
      injection h with ha hb
      injection hb with hb
      exact Or.inr (put_key_error_kinds ss { pk0 with validation := vl } a st st2 e
        (hb ▸ h2))
    · rename_i st2 u h2
      cases pv0 with
      | none =>
        injection h with ha hb
        exact Except.noConfusion hb
      | some pk =>
        exact Or.inr (put_key_error_kinds ss pk a st2 st1 e h)

/-- Counterexample to claim C7 as stated: the remote resolution step
CAN surface an error kind other than KeyNotFound.  Here the directory
responds 200 with an openpgp key whose only uid is "c@x.org" while the
queried address is "b@x.org"; `put_key`'s address check fails with
`KeyAddressMismatch`, which travels inside the Deferred returned by
`put_raw_key`, is not caught by the try/except (that catches only
synchronously raised exceptions), and surfaces unchanged. -/
theorem c7_counterexample_mismatch_surfaces :
    KeyManager.fetch_keys_from_server parse_c7 ss_all "https://x.org" "b@x.org"
        (HttpResult.success [("openpgp", "ARMOR")]) store_empty
      = (store_empty, Except.error (KMError.KeyAddressMismatch
          "UID c@x.org found, but expected b@x.org")) := rfl

/-- Claim C7 (amended): an HTTP 404 from the directory yields
KeyNotFound(address); every other HTTP error status or transport error
yields KeyNotFound carrying the underlying detail; synchronous
exceptions during fetch/parse are likewise normalized to KeyNotFound;
but a failure of the store write inside put_raw_key — KeyAddressMismatch
or KeyNotValidUpgrade — propagates unchanged, so the errors surfacing
from remote resolution are exactly of the kinds KeyNotFound,
KeyAddressMismatch and KeyNotValidUpgrade. -/
theorem c7_fetch_error_kinds (parse : String → Option Key × Option Key)
    (ss : Key → Key → Bool) (uri a : String) (res : HttpResult) (st : Store) :
    (∀ st1 e, KeyManager.fetch_keys_from_server parse ss uri a res st
        = (st1, Except.error e) → surfacedKind e)
    ∧ (∀ msg, res = HttpResult.httpError 404 msg →
      KeyManager.fetch_keys_from_server parse ss uri a res st
        = (st, Except.error (KMError.KeyNotFound a)))
    ∧ (∀ status msg, status ≠ 404 → res = HttpResult.httpError status msg →
      KeyManager.fetch_keys_from_server parse ss uri a res st
        = (st, Except.error (KMError.KeyNotFound msg)))
    ∧ (∀ msg, res = HttpResult.transportError msg →
      KeyManager.fetch_keys_from_server parse ss uri a res st
        = (st, Except.error (KMError.KeyNotFound msg))) := by
  refine ⟨?_, ?_, ?_, ?_⟩
  · intro st1 e h
    cases res with
    | httpError status msg =>
      unfold KeyManager.fetch_keys_from_server at h
      dsimp only at h
      split at h
      · injection h with ha hb
        injection hb with hb
        exact Or.inl ⟨_, hb.symm⟩
      · injection h with ha hb
        injection hb with hb
        exact Or.inl ⟨_, hb.symm⟩
    | transportError msg =>
      unfold KeyManager.fetch_keys_from_server at h
      dsimp only at h
      injection h with ha hb
      injection hb with hb
      exact Or.inl ⟨_, hb.symm⟩
    | success ks =>
      unfold KeyManager.fetch_keys_from_server at h
      dsimp only at h
      split at h
      · injection h with ha hb
        exact Except.noConfusion hb
      · split at h
        · injection h with ha hb
          injection hb with hb
          exact Or.inl ⟨_, hb.symm⟩
        · split at h
          · injection h with ha hb
            injection hb with hb
            exact Or.inl ⟨_, hb.symm⟩
          · rename_i st2 r hput hr
            injection h with ha hb
            cases r with
            | ok u => exact Except.noConfusion hb
            | error e2 =>
              injection hb with hb
              rcases put_raw_key_error_kinds _ _ _ _ _ _ _ _ hr with hpy | hrest
              · obtain ⟨d, hd⟩ := hpy
                exact (hput d (by rw [hd])).elim
              · rw [← hb]
                exact Or.inr hrest
  · intro msg hres
    subst hres
    rfl
  · intro status msg hne hres
    subst hres
    unfold KeyManager.fetch_keys_from_server
    dsimp only
    rw [if_neg hne]
  · intro msg hres
    subst hres
    rfl

/-- Witness for C7 (amended): the counterexample input surfaces a
KeyAddressMismatch, which is among the amended kinds; a 404, a 500 and
a transport error are normalized to KeyNotFound. -/
theorem c7_fetch_error_kinds_witness :
    surfacedKind (KMError.KeyAddressMismatch "UID c@x.org found, but expected b@x.org")
    ∧ (KeyManager.fetch_keys_from_server parse_c7 ss_all "https://x.org" "b@x.org"
        (HttpResult.httpError 404 "m") store_empty
      = (store_empty, Except.error (KMError.KeyNotFound "b@x.org")))
    ∧ (KeyManager.fetch_keys_from_server parse_c7 ss_all "https://x.org" "b@x.org"
        (HttpResult.httpError 500 "boom") store_empty
      = (store_empty, Except.error (KMError.KeyNotFound "boom")))
    ∧ (KeyManager.fetch_keys_from_server parse_c7 ss_all "https://x.org" "b@x.org"
        (HttpResult.transportError "down") store_empty
      = (store_empty, Except.error (KMError.KeyNotFound "down"))) :=
  ⟨(c7_fetch_error_kinds parse_c7 ss_all "https://x.org" "b@x.org"
      (HttpResult.success [("openpgp", "ARMOR")]) store_empty).1 store_empty
      (KMError.KeyAddressMismatch "UID c@x.org found, but expected b@x.org") rfl,
   (c7_fetch_error_kinds parse_c7 ss_all "https://x.org" "b@x.org"
      (HttpResult.httpError 404 "m") store_empty).2.1 "m" rfl,
   (c7_fetch_error_kinds parse_c7 ss_all "https://x.org" "b@x.org"
      (HttpResult.httpError 500 "boom") store_empty).2.2.1 500 "boom" (by decide) rfl,
   (c7_fetch_error_kinds parse_c7 ss_all "https://x.org" "b@x.org"
      (HttpResult.transportError "down") store_empty).2.2.2 "down" rfl⟩
